import Mathlib

/-!
Verification development for the PitchPerfect voice-interview frontend and its
transcription edge function.  The definitions below are a shallow embedding of
the TypeScript source:

* `src/src/pages/InterviewPage.tsx` — the `ChatInterface` session controller
  (`startInterview`, `sendMessage`, `retryLastMessage`, the audio queue
  machinery `processNextAudio` / `playInterviewerResponse` /
  `stopCurrentAudio` / `toggleAudio`) and the UI gating of the send control;
* `src/src/components/ChatInput.tsx` — recording finalization
  (`recorder.onstop`) and `transcribeAudio` (filename mapping and response
  handling);
* `src/supabase/functions/transcribe-audio/index.ts` — the upload validation
  and the empty-transcription branch of the edge function.

JavaScript strings are modelled as `String`, JS string-truthiness as
inequality with `""`, `String.prototype.includes` as `jsIncludes`, and the
optional `nextStage` field (applied only when truthy) as `Option Stage`.
-/

namespace PitchPerfect

/-- Character-list version of `startsWith`, used to build the substring test. -/
def strStartsWithL : List Char → List Char → Bool
  | _, [] => true
  | [], _ :: _ => false
  | c :: cs, d :: ds => c == d && strStartsWithL cs ds

/-- Character-list substring test: does the pattern occur somewhere in `s`? -/
def strContainsL : List Char → List Char → Bool
  | [], pat => strStartsWithL [] pat
  | c :: cs, pat => strStartsWithL (c :: cs) pat || strContainsL cs pat

/-- Embedding of JavaScript `s.includes(pat)` for strings. -/
def jsIncludes (s pat : String) : Bool :=
  strContainsL s.toList pat.toList

/-- Embedding of JavaScript `s.startsWith(pat)` for strings. -/
def jsStartsWith (s pat : String) : Bool :=
  strStartsWithL s.toList pat.toList

/-- Whitespace characters relevant to the strings this code trims. -/
def isWhitespaceChar (c : Char) : Bool :=
  c == ' ' || c == '\t' || c == '\n' || c == '\r'

/-- Drop leading whitespace from a character list. -/
def dropLeadingWs : List Char → List Char
  | [] => []
  | c :: r => if isWhitespaceChar c then dropLeadingWs r else c :: r

/-- Embedding of JavaScript `s.trim()`: whitespace removed from both ends. -/
def jsTrim (s : String) : String :=
  String.mk ((dropLeadingWs (dropLeadingWs s.toList).reverse).reverse)

/-- The interview stage enumeration of `InterviewPage.tsx` (line 300):
`'start' | 'technical' | 'behavioral' | 'situational' | 'closing'`. -/
inductive Stage
  | start
  | technical
  | behavioral
  | situational
  | closing
deriving DecidableEq

/-- Position of a stage in the fixed ordering
`start < technical < behavioral < situational < closing`
(the order used by `getStageProgress`, `InterviewPage.tsx` lines 702-706). -/
def stageIdx : Stage → Nat
  | .start => 0
  | .technical => 1
  | .behavioral => 2
  | .situational => 3
  | .closing => 4

/-- `a` is not later than `b` in the fixed stage ordering. -/
def stageLe (a b : Stage) : Prop := stageIdx a ≤ stageIdx b

instance : DecidablePred fun p : Stage × Stage => stageLe p.1 p.2 := by
  intro p; unfold stageLe; infer_instance

instance (a b : Stage) : Decidable (stageLe a b) := by
  unfold stageLe; infer_instance

/-- The two roles of a transcript `Message` (`InterviewPage.tsx` line 39). -/
inductive Role
  | interviewer
  | candidate
deriving DecidableEq

/-- One transcript entry, from the `Message` interface of `InterviewPage.tsx`
(lines 37-43).  The `id` and `timestamp` fields are wall-clock bookkeeping and
are not part of any claim, so they are omitted from the embedding. -/
structure Message where
  role : Role
  content : String
  questionType : Option String
deriving DecidableEq

/-- The `data.interview` object consumed by the controller: `question`,
`questionType`, the optional `nextStage` (applied only when truthy, modelled
as `Option Stage`) and the `interviewComplete` flag
(`InterviewPage.tsx` lines 544-570). -/
structure EngineInterview where
  question : String
  questionType : Option String
  nextStage : Option Stage
  interviewComplete : Bool
deriving DecidableEq

/-- Outcome of one call to the interview-engine endpoint as the controller
observes it: a parsed `data.interview`, a success response without an
`interview` object (the controller then does nothing), a non-OK HTTP status
(`throw new Error` at lines 534-536), or `success=false` with an error string
(lines 540-542). -/
inductive EngineResult
  | ok (interview : EngineInterview)
  | okNoInterview
  | httpError (status : Nat)
  | failure (error : String)
deriving DecidableEq

/-- Component state of `ChatInterface` (`InterviewPage.tsx` lines 297-309):
`messages`, `currentMessage`, `isLoading`, `interviewStage`, `error`,
`isSpeaking`, `isAudioEnabled`, `audioQueue`; `completionScheduled` records
that the `interviewComplete` timeout has been scheduled (lines 566-570). -/
structure ChatState where
  messages : List Message
  currentMessage : String
  isLoading : Bool
  stage : Stage
  error : String
  isSpeaking : Bool
  isAudioEnabled : Bool
  audioQueue : List String
  completionScheduled : Bool
deriving DecidableEq

/-- Initial `ChatInterface` state: empty transcript, empty input, not loading,
stage `start`, no error, not speaking, audio enabled, empty queue. -/
def initChatState : ChatState :=
  { messages := []
    currentMessage := ""
    isLoading := false
    stage := Stage.start
    error := ""
    isSpeaking := false
    isAudioEnabled := true
    audioQueue := []
    completionScheduled := false }

/-- Message thrown for an engine failure inside `sendMessage`:
a non-OK response throws `HTTP error! status: N` (lines 534-536); a
`success=false` body throws `data.error` or the fixed fallback
(lines 540-542). -/
def thrownSendMessage : Nat ⊕ String → String
  | .inl status => "HTTP error! status: " ++ toString status
  | .inr e => if e != "" then e else "Failed to get interview response"

/-- The user-visible error text chosen in the `catch` of `sendMessage`
(`InterviewPage.tsx` lines 575-584), keyed on substrings of the thrown
message. -/
def sendErrorMessage (m : String) : String :=
  if jsIncludes m "fetch" then
    "Network error. Please check your connection and try again."
  else if jsIncludes m "429" then
    "Too many requests. Please wait a moment and try again."
  else if jsIncludes m "500" then
    "Server error. Please try again in a few minutes."
  else
    "Sorry, an error occurred. Please try sending your message again."

/-- The user-visible error text chosen in the `catch` of `startInterview`
(`InterviewPage.tsx` lines 480-487). -/
def startErrorMessage (m : String) : String :=
  if jsIncludes m "fetch" then
    "Network error. Please check your connection and try again."
  else if jsIncludes m "500" then
    "Server error. Please try again in a few minutes."
  else
    "Failed to start the interview. Please try again."

/-- Embedding of `sendMessage` (`InterviewPage.tsx` lines 496-591) as a
function of the pre-state and the engine call outcome.  The guard mirrors
line 498 (`!currentMessage.trim() || isLoading`).  The candidate message is
appended and the input cleared before the call (lines 500-511); on success
the interviewer message is appended, the question is queued for audio when
enabled, and `nextStage` is applied when truthy (lines 544-570); on failure
only the error text changes (lines 572-587).  `isLoading` is set in line 510
and reset in the `finally` (line 589), so its net value is unchanged. -/
def sendMessage (s : ChatState) (result : EngineResult) : ChatState :=
  if jsTrim s.currentMessage == "" || s.isLoading then s
  else
    let cand : Message := ⟨Role.candidate, s.currentMessage, none⟩
    let s1 : ChatState :=
      { s with messages := s.messages ++ [cand], currentMessage := "", error := "" }
    match result with
    | .ok i =>
        { s1 with
          messages := s1.messages ++ [⟨Role.interviewer, i.question, i.questionType⟩]
          audioQueue :=
            if s.isAudioEnabled then s1.audioQueue ++ [i.question] else s1.audioQueue
          stage := match i.nextStage with
            | some ns => ns
            | none => s.stage
          completionScheduled := s.completionScheduled || i.interviewComplete }
    | .okNoInterview => s1
    | .httpError status =>
        { s1 with error := sendErrorMessage (thrownSendMessage (.inl status)) }
    | .failure e =>
        { s1 with error := sendErrorMessage (thrownSendMessage (.inr e)) }

/-- Embedding of `startInterview` (`InterviewPage.tsx` lines 434-494).  On
success the transcript is set to the single welcome message and the question
is queued for audio when enabled (lines 462-476); on failure only the error
text changes (lines 477-490). -/
def startInterview (s : ChatState) (result : EngineResult) : ChatState :=
  match result with
  | .ok i =>
      { s with
        messages := [⟨Role.interviewer, i.question, i.questionType⟩]
        audioQueue := if s.isAudioEnabled then [i.question] else s.audioQueue
        error := ""
        isLoading := false }
  | .okNoInterview => { s with error := "", isLoading := false }
  | .httpError status =>
      { s with
        error := startErrorMessage ("HTTP error! status: " ++ toString status)
        isLoading := false }
  | .failure e =>
      { s with
        error := startErrorMessage (if e != "" then e else "Failed to start interview")
        isLoading := false }

/-- Embedding of `retryLastMessage` (`InterviewPage.tsx` lines 692-700): if
the transcript is non-empty, copy the content of the last candidate message
back into the input and clear the error. -/
def retryLastMessage (s : ChatState) : ChatState :=
  if s.messages.length > 0 then
    match s.messages.reverse.find? (fun m => m.role == Role.candidate) with
    | some m => { s with currentMessage := m.content, error := "" }
    | none => s
  else s

/-- The `disabled` attribute of the send control in `ChatInput.tsx`
(line 490): `!input.trim() || isLoading || isTranscribing || disabled`. -/
def sendButtonDisabled (input : String)
    (isLoadingProp isTranscribing disabledProp : Bool) : Bool :=
  jsTrim input == "" || isLoadingProp || isTranscribing || disabledProp

/-- The submit path as wired in `ChatInterface` (`InterviewPage.tsx` lines
850-861): `ChatInput` receives `isLoading := isLoading || isSpeaking` and
`disabled := isSpeaking`, and its send control dispatches `sendMessage` only
when not disabled.  (The textarea, hence the Enter-key path, is disabled
under the same condition, `ChatInput.tsx` line 481.) -/
def uiSubmit (s : ChatState) (isTranscribing : Bool) (result : EngineResult) : ChatState :=
  if sendButtonDisabled s.currentMessage (s.isLoading || s.isSpeaking)
      isTranscribing s.isSpeaking then s
  else sendMessage s result

/-! ### Recording finalization and transcription request (`ChatInput.tsx`) -/

/-- Outcome of the `recorder.onstop` handler of `ChatInput.tsx`
(lines 124-180): no data collected, a too-short rejection with its
user-visible message, or a call to `transcribeAudio` with the blob. -/
inductive RecOutcome
  | noData
  | tooShort (msg : String)
  | transcribeCall (blobSize : Nat)
deriving DecidableEq

/-- Embedding of the validation in `recorder.onstop` (`ChatInput.tsx` lines
142-176).  `chunkSizes` are the sizes of the collected data chunks (the blob
size is their sum) and `recordingTime` is the integer seconds counter driven
by the one-second interval timer (lines 207-214).  The checks run in source
order: empty chunk list (line 143), blob size below 1024 bytes (line 161),
elapsed time below 1 second (line 167); only afterwards is `transcribeAudio`
invoked (line 176). -/
def finalizeRecording (chunkSizes : List Nat) (recordingTime : Nat) : RecOutcome :=
  if chunkSizes.isEmpty then
    RecOutcome.noData
  else if chunkSizes.sum < 1024 then
    RecOutcome.tooShort "Recording too short or empty. Please record for at least 2 seconds."
  else if recordingTime < 1 then
    RecOutcome.tooShort "Recording too short. Please record for at least 2 seconds."
  else
    RecOutcome.transcribeCall chunkSizes.sum

/-- Filename chosen by `transcribeAudio` for the multipart upload
(`ChatInput.tsx` lines 284-298): the extension is derived from the MIME type
of the recording by substring tests, with `recording.wav` as the initial
default. -/
def pickFilename (mime : String) : String :=
  if jsIncludes mime "mp4" then "recording.mp4"
  else if jsIncludes mime "mpeg" || jsIncludes mime "mp3" then "recording.mp3"
  else if jsIncludes mime "webm" then "recording.webm"
  else if jsIncludes mime "ogg" then "recording.ogg"
  else if jsIncludes mime "wav" then "recording.wav"
  else "recording.wav"

/-! ### Transcription edge function (`supabase/functions/transcribe-audio`) -/

/-- An uploaded audio file as the edge function sees it: the multipart
filename, the declared MIME type, and the byte size. -/
structure UploadedFile where
  name : String
  mimeType : String
  size : Nat
deriving DecidableEq

/-- Result of the edge function validation that runs before anything is sent
to the external transcription service: `reject status error` is an early
`success=false` JSON response with the given HTTP status, `forward filename`
means the request proceeds to the service with that upload filename. -/
inductive UploadCheck
  | reject (status : Nat) (error : String)
  | forward (filename : String)
deriving DecidableEq

/-- The MIME allow-list of the edge function
(`transcribe-audio/index.ts` lines 227-237). -/
def edgeAllowedTypes : List String :=
  ["audio/wav", "audio/mp3", "audio/mpeg", "audio/mp4", "audio/webm",
   "audio/ogg", "audio/webm;codecs=opus", "audio/x-wav", "audio/x-m4a"]

/-- MIME validation of the edge function (lines 239-240): on the allow-list,
or any type prefixed `audio/`. -/
def isValidAudioType (t : String) : Bool :=
  edgeAllowedTypes.contains t || jsStartsWith t "audio/"

/-- Filename the edge function forwards to the transcription service
(lines 290-305): the uploaded name, unless it is empty or `blob`, in which
case an extension is derived from the MIME type. -/
def edgeFilename (f : UploadedFile) : String :=
  if f.name == "" || f.name == "blob" then
    if jsIncludes f.mimeType "webm" then "audio.webm"
    else if jsIncludes f.mimeType "mp4" then "audio.mp4"
    else if jsIncludes f.mimeType "wav" then "audio.wav"
    else if jsIncludes f.mimeType "mp3" || jsIncludes f.mimeType "mpeg" then "audio.mp3"
    else "audio.webm"
  else f.name

/-- The validation chain the edge function runs on an uploaded audio file
before calling the external service (`transcribe-audio/index.ts` lines
226-315), in source order: MIME check (400), maximum size 25MB (400),
minimum size 1024 bytes (400); only then is the request forwarded. -/
def validateUpload (f : UploadedFile) : UploadCheck :=
  if !(isValidAudioType f.mimeType) then
    UploadCheck.reject 400
      ("Unsupported audio format: " ++ f.mimeType ++ ". Please use WAV, MP3, MP4, WebM, or OGG.")
  else if f.size > 25 * 1024 * 1024 then
    UploadCheck.reject 400 "Audio file too large. Maximum size is 25MB."
  else if f.size < 1024 then
    UploadCheck.reject 400 "Audio file too small. Please record for at least 1 second."
  else
    UploadCheck.forward (edgeFilename f)

/-- Response of the edge function once the external service has answered with
a transcription text (`transcribe-audio/index.ts` lines 361-398): an empty
(JS-falsy) `text` yields a 400 `success=false` response; otherwise the
trimmed text is returned with `success=true`. -/
inductive EdgeResponse
  | reject (status : Nat) (error : String)
  | transcription (text : String)
deriving DecidableEq

/-- Embedding of the empty-text branch of the edge function (lines 364-389):
`!transcriptionData.text` is true exactly for the empty string. -/
def transcribeEdge (whisperText : String) : EdgeResponse :=
  if whisperText == "" then
    EdgeResponse.reject 400
      "No transcription text received. The audio might be too quiet or unclear."
  else
    EdgeResponse.transcription (jsTrim whisperText)

/-- What `transcribeAudio` in `ChatInput.tsx` does with the edge response:
sets the input to the transcription, shows the no-speech warning, or records
an error message (lines 334-401). -/
inductive TranscribeOutcome
  | inputSet (text : String)
  | noSpeechWarning
  | recordingError (msg : String)
deriving DecidableEq

/-- Status-keyed message chosen by `transcribeAudio` for a non-OK response
(`ChatInput.tsx` lines 343-354). -/
def clientStatusMessage (status : Nat) : String :=
  if status == 400 then
    "Invalid audio format. Please try recording again with a different browser or device."
  else if status == 413 then
    "Audio file too large. Please record a shorter message."
  else if status == 429 then
    "Too many requests. Please wait a moment and try again."
  else if status == 401 || status == 403 then
    "Authentication error. Please refresh the page and try again."
  else if status == 500 then
    "Server error. Please try again or use text input instead."
  else
    "Failed to transcribe audio"

/-- Message surfaced by the `catch` of `transcribeAudio`
(`ChatInput.tsx` lines 378-398), keyed on substrings of the thrown message. -/
def transcribeCatchMessage (m : String) : String :=
  if jsIncludes m "fetch" || jsIncludes m "network" then
    "Network error. Please check your connection and try again."
  else if jsIncludes m "format" || jsIncludes m "Invalid audio" then
    "Audio format not supported. Please try recording again or use text input."
  else if jsIncludes m "large" then
    "Recording too long. Please record a shorter message."
  else if jsIncludes m "requests" || jsIncludes m "429" then
    "Too many requests. Please wait a moment and try again."
  else if jsIncludes m "Authentication" || jsIncludes m "401" || jsIncludes m "403" then
    "Authentication error. Please refresh the page and try again."
  else if jsIncludes m "500" then
    "Server error. Please try again later or use text input."
  else m

/-- Embedding of the response handling of `transcribeAudio` (`ChatInput.tsx`
lines 334-376).  A non-OK status throws the status-keyed message suffixed
with `(Status: N)` (line 356), which the `catch` maps to the surfaced error;
on success the input is set only when `data.transcription` is truthy and has
a truthy trim, otherwise the no-speech warning is shown (lines 366-376). -/
def handleEdgeResponse : EdgeResponse → TranscribeOutcome
  | .reject status _ =>
      TranscribeOutcome.recordingError
        (transcribeCatchMessage
          (clientStatusMessage status ++ " (Status: " ++ toString status ++ ")"))
  | .transcription t =>
      if t != "" && jsTrim t != "" then TranscribeOutcome.inputSet t
      else TranscribeOutcome.noSpeechWarning

/-- The full transcription pipeline from the text the external service
returned down to the effect on the chat input: edge function response then
client handling. -/
def transcribePipeline (whisperText : String) : TranscribeOutcome :=
  handleEdgeResponse (transcribeEdge whisperText)

/-! ### Audio playback queue (`InterviewPage.tsx` lines 304-432)

The source keeps the queue as `audioQueue : string[]` plus the flags
`isProcessingAudio`, `isSpeaking`, `currentAudio` and `isAudioEnabled`.  The
embedding views each text ever enqueued as one `PlaybackItem` carrying a
status; the source state is recovered as: `audioQueue` = the items that are
still `pending` or `playing` (the head is only sliced off in the `finally`
of `processNextAudio`, after its playback settles), `isProcessingAudio` =
some item is `playing`, and consumed items are `done`, `failed` or
`skipped`.  Statuses change in place, so the item order is the enqueue
order. -/

/-- Status of one playback item. -/
inductive PStatus
  | pending
  | playing
  | done
  | failed
  | skipped
deriving DecidableEq

/-- One queued unit of interviewer speech: its source text and its status. -/
structure QItem where
  text : String
  status : PStatus
deriving DecidableEq

/-- State of the playback subsystem: the items in enqueue order and the
`isAudioEnabled` flag. -/
structure AudioState where
  items : List QItem
  enabled : Bool
deriving DecidableEq

/-- Initial playback state: nothing queued, audio enabled
(`InterviewPage.tsx` lines 305-309). -/
def initAudioState : AudioState := { items := [], enabled := true }

/-- A settled status: the item was consumed and can never change again. -/
def isSettled : PStatus → Bool
  | .done => true
  | .failed => true
  | .skipped => true
  | _ => false

/-- Mark the first pending item of the list with the given status. -/
def markFirstPending (l : List QItem) (st : PStatus) : List QItem :=
  match l with
  | [] => []
  | i :: r =>
      if i.status == PStatus.pending then { i with status := st } :: r
      else i :: markFirstPending r st

/-- Mark every playing item of the list with the given status (the invariant
below shows there is at most one). -/
def markPlayingAs (l : List QItem) (st : PStatus) : List QItem :=
  l.map (fun i => if i.status == PStatus.playing then { i with status := st } else i)

/-- First item still waiting to be played. -/
def firstPending? (l : List QItem) : Option QItem :=
  l.find? (fun i => i.status == PStatus.pending)

/-- Some item is currently in `playing` status (the source's
`isProcessingAudio` / `currentAudio` being set). -/
def hasPlaying (l : List QItem) : Bool :=
  l.any (fun i => i.status == PStatus.playing)

/-- Enqueue of an interviewer question (`InterviewPage.tsx` lines 472-475 and
556-558): the text is appended to `audioQueue` only when `isAudioEnabled`. -/
def enqueueItem (s : AudioState) (t : String) : AudioState :=
  if s.enabled then { s with items := s.items ++ [⟨t, PStatus.pending⟩] }
  else s

/-- Start of the next playback, the `processNextAudio` path (lines 327-348
with the `useEffect` guard of lines 328-332 and the early return of
`playInterviewerResponse`, line 351): requires audio enabled and nothing in
flight (`isProcessingAudio` false); the head of the queue starts playing,
except that a text with a blank trim is consumed without playing (the
`finally` still slices it off). -/
def startNext (s : AudioState) : AudioState :=
  if !s.enabled || hasPlaying s.items then s
  else
    match firstPending? s.items with
    | none => s
    | some i =>
        if jsTrim i.text == "" then { s with items := markFirstPending s.items PStatus.skipped }
        else { s with items := markFirstPending s.items PStatus.playing }

/-- End of the current playback: `audio.onended` marks it done,
`audio.onerror` or a synthesis failure marks it failed (lines 382-399 and
401-412), and the `finally` of `processNextAudio` slices it off the queue and
clears `isProcessingAudio` (lines 344-347). -/
def finishCurrent (s : AudioState) (ok : Bool) : AudioState :=
  { s with items := markPlayingAs s.items (if ok then PStatus.done else PStatus.failed) }

/-- Embedding of `stopCurrentAudio` (`InterviewPage.tsx` lines 415-425): the
current audio is paused and dropped and the whole queue is cleared, so the
playing item and every pending item are discarded. -/
def stopCurrentAudio (s : AudioState) : AudioState :=
  { s with
    items := s.items.map (fun i =>
      if i.status == PStatus.playing || i.status == PStatus.pending then
        { i with status := PStatus.skipped }
      else i) }

/-- Embedding of `toggleAudio` (`InterviewPage.tsx` lines 427-432): when
audio is enabled, `stopCurrentAudio` runs first and audio is then disabled;
when disabled, audio is simply re-enabled. -/
def toggleAudio (s : AudioState) : AudioState :=
  if s.enabled then { stopCurrentAudio s with enabled := false }
  else { s with enabled := true }

/-- One step of the playback subsystem: each constructor is one of the code
paths embedded above. -/
inductive AudioStep : AudioState → AudioState → Prop
  | enqueue (s : AudioState) (t : String) : AudioStep s (enqueueItem s t)
  | start (s : AudioState) : AudioStep s (startNext s)
  | finish (s : AudioState) (ok : Bool) : AudioStep s (finishCurrent s ok)
  | interrupt (s : AudioState) : AudioStep s (stopCurrentAudio s)
  | toggle (s : AudioState) : AudioStep s (toggleAudio s)

/-- States reachable from the initial playback state. -/
def AudioReachable (s : AudioState) : Prop :=
  Relation.ReflTransGen AudioStep initAudioState s

/-- Every item of the list is still pending. -/
def pendingOnly : List QItem → Bool
  | [] => true
  | i :: r => i.status == PStatus.pending && pendingOnly r

/-- Shape invariant of the item list: settled items first, then at most one
playing item, then only pending items.  This is the discipline the
`isProcessingAudio` guard enforces. -/
def shapeOk : List QItem → Bool
  | [] => true
  | i :: r =>
      if isSettled i.status then shapeOk r
      else if i.status == PStatus.playing then pendingOnly r
      else i.status == PStatus.pending && pendingOnly r

/-- Number of items currently in `playing` status. -/
def playingCount (l : List QItem) : Nat :=
  l.countP (fun i => i.status == PStatus.playing)

/-- Texts of the items, in enqueue order. -/
def textsOf (l : List QItem) : List String := l.map (fun i => i.text)

/-- Texts of the items still pending (the part of `audioQueue` not yet
started). -/
def pendingTexts (s : AudioState) : List String :=
  (s.items.filter (fun i => i.status == PStatus.pending)).map (fun i => i.text)

/-! ### Invariant lemmas for the playback queue -/

theorem pendingOnly_append (l : List QItem) (t : String)
    (h : pendingOnly l = true) :
    pendingOnly (l ++ [⟨t, PStatus.pending⟩]) = true := by
  induction l with
  | nil => rfl
  | cons i r ih =>
      simp [pendingOnly] at h ⊢
      exact ⟨h.1, ih h.2⟩

theorem pendingOnly_shapeOk (l : List QItem) (h : pendingOnly l = true) :
    shapeOk l = true := by
  induction l with
  | nil => rfl
  | cons i r ih =>
      rcases i with ⟨u, st⟩
      simp [pendingOnly] at h
      rcases h with ⟨h1, h2⟩
      subst h1
      simp [shapeOk, isSettled]
      exact h2

theorem shapeOk_append_pending (l : List QItem) (t : String)
    (h : shapeOk l = true) :
    shapeOk (l ++ [⟨t, PStatus.pending⟩]) = true := by
  induction l with
  | nil => rfl
  | cons i r ih =>
      rcases i with ⟨u, st⟩
      cases st with
      | pending =>
          simp [shapeOk, isSettled] at h ⊢
          exact pendingOnly_append _ _ h
      | playing =>
          simp [shapeOk, isSettled] at h ⊢
          exact pendingOnly_append _ _ h
      | done =>
          simp [shapeOk, isSettled] at h ⊢
          exact ih h
      | failed =>
          simp [shapeOk, isSettled] at h ⊢
          exact ih h
      | skipped =>
          simp [shapeOk, isSettled] at h ⊢
          exact ih h

theorem pendingOnly_markPlayingAs (l : List QItem) (st : PStatus)
    (h : pendingOnly l = true) :
    markPlayingAs l st = l := by
  induction l with
  | nil => rfl
  | cons i r ih =>
      rcases i with ⟨u, s0⟩
      simp [pendingOnly] at h
      rcases h with ⟨h1, h2⟩
      subst h1
      simp [markPlayingAs] at ih ⊢
      exact ih h2

theorem shapeOk_markPlayingAs (l : List QItem) (st : PStatus)
    (hst : isSettled st = true) (h : shapeOk l = true) :
    shapeOk (markPlayingAs l st) = true := by
  induction l with
  | nil => rfl
  | cons i r ih =>
      rcases i with ⟨u, s0⟩
      cases s0 with
      | pending =>
          simp [shapeOk, isSettled] at h
          rw [show markPlayingAs (⟨u, PStatus.pending⟩ :: r) st
                = ⟨u, PStatus.pending⟩ :: markPlayingAs r st from rfl,
              pendingOnly_markPlayingAs r st h]
          simpa [shapeOk, isSettled] using h
      | playing =>
          simp [shapeOk, isSettled] at h
          rw [show markPlayingAs (⟨u, PStatus.playing⟩ :: r) st
                = ⟨u, st⟩ :: markPlayingAs r st from rfl,
              pendingOnly_markPlayingAs r st h]
          cases st with
          | done => simpa [shapeOk, isSettled] using pendingOnly_shapeOk r h
          | failed => simpa [shapeOk, isSettled] using pendingOnly_shapeOk r h
          | skipped => simpa [shapeOk, isSettled] using pendingOnly_shapeOk r h
          | pending => cases hst
          | playing => cases hst
      | done =>
          simp [shapeOk, isSettled] at h
          rw [show markPlayingAs (⟨u, PStatus.done⟩ :: r) st
                = ⟨u, PStatus.done⟩ :: markPlayingAs r st from rfl]
          simpa [shapeOk, isSettled] using ih h
      | failed =>
          simp [shapeOk, isSettled] at h
          rw [show markPlayingAs (⟨u, PStatus.failed⟩ :: r) st
                = ⟨u, PStatus.failed⟩ :: markPlayingAs r st from rfl]
          simpa [shapeOk, isSettled] using ih h
      | skipped =>
          simp [shapeOk, isSettled] at h
          rw [show markPlayingAs (⟨u, PStatus.skipped⟩ :: r) st
                = ⟨u, PStatus.skipped⟩ :: markPlayingAs r st from rfl]
          simpa [shapeOk, isSettled] using ih h

theorem shapeOk_markFirstPending (l : List QItem) (st : PStatus)
    (hst : st = PStatus.playing ∨ isSettled st = true)
    (hnp : hasPlaying l = false) (h : shapeOk l = true) :
    shapeOk (markFirstPending l st) = true := by
  induction l with
  | nil => rfl
  | cons i r ih =>
      rcases i with ⟨u, s0⟩
      cases s0 with
      | pending =>
          simp [shapeOk, isSettled] at h
          rw [show markFirstPending (⟨u, PStatus.pending⟩ :: r) st = ⟨u, st⟩ :: r from rfl]
          rcases hst with hpl | hse
          · subst hpl
            simpa [shapeOk, isSettled] using h
          · cases st with
            | done => simpa [shapeOk, isSettled] using pendingOnly_shapeOk r h
            | failed => simpa [shapeOk, isSettled] using pendingOnly_shapeOk r h
            | skipped => simpa [shapeOk, isSettled] using pendingOnly_shapeOk r h
            | pending => cases hse
            | playing => simpa [shapeOk, isSettled] using h
      | playing =>
          simp [hasPlaying] at hnp
      | done =>
          simp [shapeOk, isSettled] at h
          simp [hasPlaying] at hnp
          rw [show markFirstPending (⟨u, PStatus.done⟩ :: r) st
                = ⟨u, PStatus.done⟩ :: markFirstPending r st from rfl]
          simpa [shapeOk, isSettled] using ih (by simpa [hasPlaying] using hnp) h
      | failed =>
          simp [shapeOk, isSettled] at h
          simp [hasPlaying] at hnp
          rw [show markFirstPending (⟨u, PStatus.failed⟩ :: r) st
                = ⟨u, PStatus.failed⟩ :: markFirstPending r st from rfl]
          simpa [shapeOk, isSettled] using ih (by simpa [hasPlaying] using hnp) h
      | skipped =>
          simp [shapeOk, isSettled] at h
          simp [hasPlaying] at hnp
          rw [show markFirstPending (⟨u, PStatus.skipped⟩ :: r) st
                = ⟨u, PStatus.skipped⟩ :: markFirstPending r st from rfl]
          simpa [shapeOk, isSettled] using ih (by simpa [hasPlaying] using hnp) h

theorem shapeOk_stopItems (l : List QItem) :
    shapeOk (l.map (fun i =>
      if i.status == PStatus.playing || i.status == PStatus.pending then
        { i with status := PStatus.skipped }
      else i)) = true := by
  induction l with
  | nil => rfl
  | cons i r ih =>
      rcases i with ⟨u, s0⟩
      cases s0 <;> simpa [shapeOk, isSettled] using ih

theorem playingCount_pendingOnly (l : List QItem) (h : pendingOnly l = true) :
    playingCount l = 0 := by
  induction l with
  | nil => rfl
  | cons i r ih =>
      rcases i with ⟨u, s0⟩
      simp [pendingOnly] at h
      rcases h with ⟨h1, h2⟩
      subst h1
      simp [playingCount, List.countP_cons] at ih ⊢
      exact ih h2

theorem playingCount_le_one_of_shapeOk (l : List QItem) (h : shapeOk l = true) :
    playingCount l ≤ 1 := by
  induction l with
  | nil => exact Nat.zero_le 1
  | cons i r ih =>
      rcases i with ⟨u, s0⟩
      cases s0 with
      | pending =>
          simp [shapeOk, isSettled] at h
          have h0 := playingCount_pendingOnly r h
          have hc : playingCount (⟨u, PStatus.pending⟩ :: r) = playingCount r := by
            simp [playingCount, List.countP_cons]
          rw [hc, h0]
          exact Nat.zero_le 1
      | playing =>
          simp [shapeOk, isSettled] at h
          have h0 := playingCount_pendingOnly r h
          have hc : playingCount (⟨u, PStatus.playing⟩ :: r) = playingCount r + 1 := by
            simp [playingCount, List.countP_cons]
          rw [hc, h0]
      | done =>
          simp [shapeOk, isSettled] at h
          have h0 := ih h
          simp [playingCount, List.countP_cons] at h0 ⊢
          omega
      | failed =>
          simp [shapeOk, isSettled] at h
          have h0 := ih h
          simp [playingCount, List.countP_cons] at h0 ⊢
          omega
      | skipped =>
          simp [shapeOk, isSettled] at h
          have h0 := ih h
          simp [playingCount, List.countP_cons] at h0 ⊢
          omega

theorem audioStep_shapeOk {s s' : AudioState} (hstep : AudioStep s s')
    (h : shapeOk s.items = true) : shapeOk s'.items = true := by
  cases hstep with
  | enqueue t =>
      unfold enqueueItem
      split
      · exact shapeOk_append_pending _ _ h
      · exact h
  | start =>
      unfold startNext
      split
      · exact h
      · rename_i hguard
        have hnp : hasPlaying s.items = false := by
          cases hpl : hasPlaying s.items with
          | false => rfl
          | true => exact absurd (by simp [hpl]) hguard
        cases hfp : firstPending? s.items with
        | none => simp only [hfp]; exact h
        | some i =>
            simp only [hfp]
            split
            · exact shapeOk_markFirstPending _ _ (Or.inr rfl) hnp h
            · exact shapeOk_markFirstPending _ _ (Or.inl rfl) hnp h
  | finish ok =>
      unfold finishCurrent
      cases ok with
      | true => exact shapeOk_markPlayingAs _ _ rfl h
      | false => exact shapeOk_markPlayingAs _ _ rfl h
  | interrupt =>
      exact shapeOk_stopItems s.items
  | toggle =>
      unfold toggleAudio
      split
      · exact shapeOk_stopItems s.items
      · exact h

theorem audioReachable_shapeOk {s : AudioState} (h : AudioReachable s) :
    shapeOk s.items = true := by
  induction h with
  | refl => rfl
  | tail _ hstep ih => exact audioStep_shapeOk hstep ih

theorem textsOf_markFirstPending (l : List QItem) (st : PStatus) :
    textsOf (markFirstPending l st) = textsOf l := by
  induction l with
  | nil => rfl
  | cons i r ih =>
      simp only [markFirstPending]
      split
      · rfl
      · simpa [textsOf] using ih

theorem textsOf_map_textPreserving (l : List QItem) (f : QItem → QItem)
    (hf : ∀ i, (f i).text = i.text) :
    textsOf (l.map f) = textsOf l := by
  induction l with
  | nil => rfl
  | cons i r ih =>
      simp only [List.map_cons, textsOf] at ih ⊢
      rw [hf i]
      exact congrArg _ ih

theorem textsOf_markPlayingAs (l : List QItem) (st : PStatus) :
    textsOf (markPlayingAs l st) = textsOf l := by
  unfold markPlayingAs
  exact textsOf_map_textPreserving l _
    (fun i => by rcases i with ⟨t, s0⟩; cases s0 <;> rfl)

theorem textsOf_stop (s : AudioState) :
    textsOf (stopCurrentAudio s).items = textsOf s.items := by
  unfold stopCurrentAudio
  exact textsOf_map_textPreserving _ _
    (fun i => by rcases i with ⟨t, s0⟩; cases s0 <;> rfl)

theorem audioStep_texts {s s' : AudioState} (hstep : AudioStep s s') :
    ∃ new, textsOf s'.items = textsOf s.items ++ new := by
  cases hstep with
  | enqueue t =>
      unfold enqueueItem
      split
      · exact ⟨[t], by simp [textsOf]⟩
      · exact ⟨[], by simp⟩
  | start =>
      refine ⟨[], ?_⟩
      unfold startNext
      split
      · simp
      · cases hfp : firstPending? s.items with
        | none => simp [hfp]
        | some i =>
            simp only [hfp]
            split
            · simp [textsOf_markFirstPending]
            · simp [textsOf_markFirstPending]
  | finish ok =>
      refine ⟨[], ?_⟩
      rw [List.append_nil]
      exact textsOf_markPlayingAs s.items _
  | interrupt =>
      refine ⟨[], ?_⟩
      rw [List.append_nil]
      exact textsOf_stop s
  | toggle =>
      refine ⟨[], ?_⟩
      rw [List.append_nil]
      unfold toggleAudio
      split
      · exact textsOf_stop s
      · rfl

/-! ### Helper lemmas for the controller theorems -/

/-- An engine call outcome that takes the `catch` path of `sendMessage`:
a non-OK HTTP response or a `success=false` body. -/
def isEngineFailure : EngineResult → Bool
  | .httpError _ => true
  | .failure _ => true
  | .ok _ => false
  | .okNoInterview => false

theorem sendErrorMessage_ne (m : String) : sendErrorMessage m ≠ "" := by
  unfold sendErrorMessage
  split
  · decide
  · split
    · decide
    · split
      · decide
      · decide

theorem retryLastMessage_append (t : ChatState) (ms : List Message)
    (c : String) (qt : Option String)
    (h : t.messages = ms ++ [⟨Role.candidate, c, qt⟩]) :
    (retryLastMessage t).currentMessage = c := by
  unfold retryLastMessage
  rw [h]
  have hlen : (ms ++ [(⟨Role.candidate, c, qt⟩ : Message)]).length > 0 := by simp
  rw [if_pos hlen]
  have hrev : (ms ++ [(⟨Role.candidate, c, qt⟩ : Message)]).reverse
      = ⟨Role.candidate, c, qt⟩ :: ms.reverse := by simp
  rw [hrev]
  have hfind : (List.find? (fun m => m.role == Role.candidate)
      (⟨Role.candidate, c, qt⟩ :: ms.reverse)) = some ⟨Role.candidate, c, qt⟩ := by
    simp [List.find?]
  rw [hfind]

/-! ### Claim theorems -/

/-- C1, counterexample: the controller applies a `nextStage` returned by the
engine with no monotonicity check.  From stage `closing`, an engine response
carrying `nextStage = start` moves the session stage back to `start`, which
is strictly earlier in the fixed ordering, refuting the claim that the
resulting stage is never earlier than the stage before the update. -/
theorem C1_counterexample :
    (sendMessage
      { initChatState with
          messages := [⟨Role.interviewer, "Any final questions?", none⟩]
          currentMessage := "No, thank you."
          stage := Stage.closing }
      (EngineResult.ok ⟨"Welcome to the interview.", none, some Stage.start, false⟩)).stage
        = Stage.start
    ∧ ¬ stageLe Stage.closing Stage.start := by decide

/-- C1, amended: `sendMessage` applies whatever `nextStage` the engine
returned, verbatim; the observed stage is non-decreasing in the fixed
ordering only under the assumption that every `nextStage` the engine
returns is not earlier than the current stage.  Under that assumption each
update is monotone. -/
theorem C1_stage_monotone (s : ChatState) (i : EngineInterview)
    (h : ∀ ns, i.nextStage = some ns → stageLe s.stage ns) :
    stageLe s.stage (sendMessage s (EngineResult.ok i)).stage := by
  unfold sendMessage
  split
  · exact Nat.le_refl _
  · cases hns : i.nextStage with
    | none => simp only [hns]; exact Nat.le_refl _
    | some ns => simp only [hns]; exact h ns hns

/-- C1, witness: a concrete monotone update, `technical` to `behavioral`. -/
theorem C1_witness :
    stageLe
      ({ initChatState with
          currentMessage := "Tell me more."
          stage := Stage.technical } : ChatState).stage
      (sendMessage
        { initChatState with
            currentMessage := "Tell me more."
            stage := Stage.technical }
        (EngineResult.ok ⟨"Next question.", none, some Stage.behavioral, false⟩)).stage :=
  C1_stage_monotone _ _ (by intro ns h; cases h; decide)

/-- The pre-state of the C2 counterexample: one interviewer turn committed,
a candidate answer typed into the input. -/
def c2pre : ChatState :=
  { initChatState with
      messages := [⟨Role.interviewer, "Tell me about yourself.", none⟩]
      currentMessage := "I am a software engineer." }

/-- C2, counterexample: `sendMessage` appends the candidate turn before the
engine call and never removes it on failure, so after a failed round the
transcript is NOT the transcript of the last fully-committed turn: the
failed round's candidate turn is left appended. -/
theorem C2_counterexample :
    (sendMessage c2pre (EngineResult.httpError 500)).messages ≠ c2pre.messages
    ∧ (sendMessage c2pre (EngineResult.httpError 500)).messages
        = c2pre.messages ++ [⟨Role.candidate, "I am a software engineer.", none⟩] := by decide

/-- C2, amended: on a failed engine call (non-OK HTTP response or
`success=false`) the candidate turn remains appended to the transcript and
no interviewer turn is added; the stage is unchanged, the input field is
cleared, a non-empty error is retained as user-visible state, and the
submitted text is recoverable for resend via `retryLastMessage`, which reads
it back from the appended candidate turn. -/
theorem C2_failed_round (s : ChatState) (r : EngineResult)
    (hr : isEngineFailure r = true)
    (hmsg : jsTrim s.currentMessage ≠ "") (hload : s.isLoading = false) :
    (sendMessage s r).messages
        = s.messages ++ [⟨Role.candidate, s.currentMessage, none⟩]
    ∧ (sendMessage s r).stage = s.stage
    ∧ (sendMessage s r).currentMessage = ""
    ∧ (sendMessage s r).error ≠ ""
    ∧ (retryLastMessage (sendMessage s r)).currentMessage = s.currentMessage := by
  have hguard : (jsTrim s.currentMessage == "" || s.isLoading) = false := by
    simp [hload, hmsg]
  have hcond : ¬ ((jsTrim s.currentMessage == "" || s.isLoading) = true) := by
    simp [hguard]
  cases r with
  | ok i => simp [isEngineFailure] at hr
  | okNoInterview => simp [isEngineFailure] at hr
  | httpError status =>
      unfold sendMessage
      rw [if_neg hcond]
      exact ⟨rfl, rfl, rfl, sendErrorMessage_ne _,
        retryLastMessage_append _ s.messages s.currentMessage none rfl⟩
  | failure e =>
      unfold sendMessage
      rw [if_neg hcond]
      exact ⟨rfl, rfl, rfl, sendErrorMessage_ne _,
        retryLastMessage_append _ s.messages s.currentMessage none rfl⟩

/-- C2, witness: the amended failure contract evaluated on a concrete state
and a concrete 500 response. -/
theorem C2_witness :
    (sendMessage c2pre (EngineResult.failure "Failed to get interview response")).messages
        = c2pre.messages ++ [⟨Role.candidate, "I am a software engineer.", none⟩]
    ∧ (retryLastMessage
        (sendMessage c2pre (EngineResult.failure "Failed to get interview response"))).currentMessage
        = "I am a software engineer." := by
  have h := C2_failed_round c2pre (EngineResult.failure "Failed to get interview response")
    (by decide) (by decide) (by decide)
  exact ⟨h.1, h.2.2.2.2⟩

/-- C3: a successful initialization puts exactly one interviewer turn into
the (initially empty) transcript, and a successfully completed turn cycle
appends exactly two turns: the candidate turn followed by the interviewer
turn, in that order. -/
theorem C3_transcript_growth (s0 s1 : ChatState) (i0 i1 : EngineInterview)
    (hinit : s0.messages = [])
    (hmsg : jsTrim s1.currentMessage ≠ "") (hload : s1.isLoading = false) :
    (startInterview s0 (EngineResult.ok i0)).messages
        = [⟨Role.interviewer, i0.question, i0.questionType⟩]
    ∧ (startInterview s0 (EngineResult.ok i0)).messages.length = s0.messages.length + 1
    ∧ (sendMessage s1 (EngineResult.ok i1)).messages
        = s1.messages ++ [⟨Role.candidate, s1.currentMessage, none⟩,
                          ⟨Role.interviewer, i1.question, i1.questionType⟩]
    ∧ (sendMessage s1 (EngineResult.ok i1)).messages.length = s1.messages.length + 2 := by
  have hguard : (jsTrim s1.currentMessage == "" || s1.isLoading) = false := by
    simp [hload, hmsg]
  have hcond : ¬ ((jsTrim s1.currentMessage == "" || s1.isLoading) = true) := by
    simp [hguard]
  have hsend : (sendMessage s1 (EngineResult.ok i1)).messages
      = s1.messages ++ [⟨Role.candidate, s1.currentMessage, none⟩,
                        ⟨Role.interviewer, i1.question, i1.questionType⟩] := by
    unfold sendMessage
    rw [if_neg hcond]
    simp
  refine ⟨rfl, ?_, hsend, ?_⟩
  · rw [hinit]; rfl
  · rw [hsend]; simp

/-- C3, witness: the growth property evaluated on concrete states. -/
theorem C3_witness :
    (startInterview initChatState
        (EngineResult.ok ⟨"Welcome. Tell me about yourself.", some "opening", none, false⟩)).messages
      = [⟨Role.interviewer, "Welcome. Tell me about yourself.", some "opening"⟩]
    ∧ (sendMessage c2pre
        (EngineResult.ok ⟨"What is your greatest strength?", some "behavioral", none, false⟩)).messages
      = c2pre.messages ++ [⟨Role.candidate, "I am a software engineer.", none⟩,
          ⟨Role.interviewer, "What is your greatest strength?", some "behavioral"⟩] := by
  have h := C3_transcript_growth initChatState c2pre
    ⟨"Welcome. Tell me about yourself.", some "opening", none, false⟩
    ⟨"What is your greatest strength?", some "behavioral", none, false⟩
    (by decide) (by decide) (by decide)
  exact ⟨h.1, h.2.2.1⟩

/-- C4: while the interviewer audio is playing (`isSpeaking = true`) the
send control is disabled (its `disabled` attribute is forced true through
both the `isLoading` and `disabled` props), so a submission attempt is
rejected: the state, and in particular the transcript length, is
unchanged. -/
theorem C4_speaking_blocks_submit (s : ChatState) (isTranscribing : Bool)
    (r : EngineResult) (h : s.isSpeaking = true) :
    uiSubmit s isTranscribing r = s
    ∧ (uiSubmit s isTranscribing r).messages.length = s.messages.length := by
  have hd : sendButtonDisabled s.currentMessage (s.isLoading || s.isSpeaking)
      isTranscribing s.isSpeaking = true := by
    simp [sendButtonDisabled, h]
  have he : uiSubmit s isTranscribing r = s := by
    unfold uiSubmit
    simp only [hd, if_true]
  exact ⟨he, by rw [he]⟩

/-- C4, witness: a concrete submission attempt while speaking, with a typed
non-blank input and a successful engine response available, still leaves the
state untouched. -/
theorem C4_witness :
    uiSubmit { c2pre with isSpeaking := true } false
        (EngineResult.ok ⟨"Next question.", none, none, false⟩)
      = { c2pre with isSpeaking := true } :=
  (C4_speaking_blocks_submit { c2pre with isSpeaking := true } false
    (EngineResult.ok ⟨"Next question.", none, none, false⟩) rfl).1

/-- C5: in every reachable state of the playback subsystem at most one
`PlaybackItem` is in `playing` status; the item list always has the shape
"settled items, then at most one playing item, then only pending items"
(so the item being played always precedes every waiting item); and every
step only appends texts at the tail, never reorders, so items are played
strictly in enqueue order with no concurrent playback. -/
theorem C5_playback_invariant (s : AudioState) (h : AudioReachable s) :
    playingCount s.items ≤ 1
    ∧ shapeOk s.items = true
    ∧ ∀ s', AudioStep s s' → ∃ new, textsOf s'.items = textsOf s.items ++ new := by
  have hs := audioReachable_shapeOk h
  exact ⟨playingCount_le_one_of_shapeOk _ hs, hs, fun s' hstep => audioStep_texts hstep⟩

/-- C5, witness: the invariant evaluated on the concrete reachable state in
which one enqueued question has started playing. -/
theorem C5_witness :
    playingCount (startNext (enqueueItem initAudioState "Welcome to the interview.")).items ≤ 1
    ∧ shapeOk (startNext (enqueueItem initAudioState "Welcome to the interview.")).items = true := by
  have hr : AudioReachable (startNext (enqueueItem initAudioState "Welcome to the interview.")) :=
    Relation.ReflTransGen.tail
      (Relation.ReflTransGen.single
        (AudioStep.enqueue initAudioState "Welcome to the interview."))
      (AudioStep.start _)
  exact ⟨(C5_playback_invariant _ hr).1, (C5_playback_invariant _ hr).2.1⟩

theorem stopItems_no_pending (l : List QItem) :
    ((l.map (fun i =>
        if i.status == PStatus.playing || i.status == PStatus.pending then
          { i with status := PStatus.skipped }
        else i)).filter (fun i => i.status == PStatus.pending)) = [] := by
  induction l with
  | nil => rfl
  | cons i r ih =>
      rcases i with ⟨t, s0⟩
      cases s0 <;> exact ih

theorem stopItems_no_playing (l : List QItem) :
    playingCount (l.map (fun i =>
        if i.status == PStatus.playing || i.status == PStatus.pending then
          { i with status := PStatus.skipped }
        else i)) = 0 := by
  induction l with
  | nil => rfl
  | cons i r ih =>
      rcases i with ⟨t, s0⟩
      cases s0 <;> exact ih

/-- C6, counterexample: `toggleAudio` on an enabled state runs
`stopCurrentAudio`, which clears the queue, so disabling audio does NOT
preserve the pending items: a queue holding one pending question is empty
after disabling, refuting the claim. -/
theorem C6_counterexample :
    pendingTexts (enqueueItem initAudioState "What is your greatest strength?")
      = ["What is your greatest strength?"]
    ∧ pendingTexts (toggleAudio (enqueueItem initAudioState "What is your greatest strength?"))
      = []
    ∧ (toggleAudio (enqueueItem initAudioState "What is your greatest strength?")).enabled
      = false := by decide

/-- C6, amended: disabling audio playback via `toggleAudio` stops the
current playback AND discards every pending item (the queue is cleared by
`stopCurrentAudio`); re-enabling therefore resumes with an empty queue, and
only items enqueued afterwards are played. -/
theorem C6_disable_clears_queue (s : AudioState) (h : s.enabled = true) :
    (toggleAudio s).enabled = false
    ∧ pendingTexts (toggleAudio s) = []
    ∧ playingCount (toggleAudio s).items = 0
    ∧ (toggleAudio (toggleAudio s)).enabled = true
    ∧ pendingTexts (toggleAudio (toggleAudio s)) = [] := by
  unfold toggleAudio
  rw [if_pos h]
  have hp : pendingTexts { stopCurrentAudio s with enabled := false } = [] := by
    unfold pendingTexts stopCurrentAudio
    rw [stopItems_no_pending s.items]
    rfl
  refine ⟨rfl, hp, ?_, ?_, ?_⟩
  · exact stopItems_no_playing s.items
  · rw [if_neg (by simp)]
  · rw [if_neg (by simp)]
    simpa [pendingTexts] using hp

/-- C6, witness: the amended toggle behavior evaluated on a concrete enabled
state with one pending item. -/
theorem C6_witness :
    (toggleAudio (enqueueItem initAudioState "Next question.")).enabled = false
    ∧ pendingTexts (toggleAudio (enqueueItem initAudioState "Next question.")) = [] := by
  have h := C6_disable_clears_queue (enqueueItem initAudioState "Next question.") (by decide)
  exact ⟨h.1, h.2.1⟩

/-- C7, counterexample: a transcription response whose `text` is exactly the
empty string is rejected by the edge function with a 400 response, which the
client surfaces as an audio-format error, NOT as the no-speech
classification — refuting the claim for the "empty" half of "empty or
whitespace-only". -/
theorem C7_counterexample :
    transcribePipeline "" ≠ TranscribeOutcome.noSpeechWarning
    ∧ transcribePipeline ""
        = TranscribeOutcome.recordingError
            "Audio format not supported. Please try recording again or use text input." := by
  decide

/-- C7, amended: a service text that is whitespace-only but non-empty is
classified as no-speech by the client (never set as input), a transcription
is never delivered to the input as a blank string, and a state whose input
trims to blank cannot append a candidate turn (`sendMessage` is a no-op on
it); exactly-empty text instead takes the edge function's 400 path. -/
theorem C7_whitespace_no_speech (t : String)
    (hne : t ≠ "") (htrim : jsTrim t = "") :
    transcribePipeline t = TranscribeOutcome.noSpeechWarning
    ∧ (∀ u, transcribePipeline t ≠ TranscribeOutcome.inputSet u)
    ∧ (∀ w u, transcribePipeline w = TranscribeOutcome.inputSet u → jsTrim u ≠ "")
    ∧ (∀ (s : ChatState) r, jsTrim s.currentMessage = "" → sendMessage s r = s) := by
  have h1 : (t == "") = false := by
    simpa using hne
  have hmain : transcribePipeline t = TranscribeOutcome.noSpeechWarning := by
    unfold transcribePipeline transcribeEdge
    rw [h1]
    simp only [Bool.false_eq_true, if_false]
    unfold handleEdgeResponse
    rw [htrim]
    rfl
  refine ⟨hmain, ?_, ?_, ?_⟩
  · intro u hu
    rw [hmain] at hu
    exact TranscribeOutcome.noConfusion hu
  · intro w u hw
    unfold transcribePipeline at hw
    by_cases hwe : (w == "") = true
    · have hre : transcribeEdge w = EdgeResponse.reject 400
          "No transcription text received. The audio might be too quiet or unclear." := by
        unfold transcribeEdge; rw [if_pos hwe]
      rw [hre] at hw
      exact absurd hw (fun hx => TranscribeOutcome.noConfusion hx)
    · have hok : transcribeEdge w = EdgeResponse.transcription (jsTrim w) := by
        unfold transcribeEdge; rw [if_neg hwe]
      rw [hok] at hw
      have hge : handleEdgeResponse (EdgeResponse.transcription (jsTrim w))
          = if (jsTrim w != "" && jsTrim (jsTrim w) != "") = true
              then TranscribeOutcome.inputSet (jsTrim w)
              else TranscribeOutcome.noSpeechWarning := rfl
      rw [hge] at hw
      by_cases hc : (jsTrim w != "" && jsTrim (jsTrim w) != "") = true
      · rw [if_pos hc] at hw
        injection hw with hww
        subst hww
        have hand := (Bool.and_eq_true _ _).mp hc
        simpa using hand.2
      · rw [if_neg hc] at hw
        exact absurd hw (fun hx => TranscribeOutcome.noConfusion hx)
  · intro s r hs
    unfold sendMessage
    rw [if_pos (by simp [hs])]

/-- C7, witness: the amended classification evaluated at the whitespace-only
service text of the claim, `"   "`. -/
theorem C7_witness :
    transcribePipeline "   " = TranscribeOutcome.noSpeechWarning ∧
    sendMessage { initChatState with currentMessage := "  " } (EngineResult.httpError 500)
      = { initChatState with currentMessage := "  " } := by
  have h := C7_whitespace_no_speech "   " (by decide) (by decide)
  exact ⟨h.1, h.2.2.2 _ _ (by decide)⟩

/-- C8: a finalized recording whose blob totals 500 bytes with an elapsed
timer of 0 seconds (a 0.5-second recording never reaches the first
one-second tick) is rejected by the `onstop` validation with the too-short
message, and `transcribeAudio` is never invoked for it. -/
theorem C8_short_recording_rejected (chunkSizes : List Nat)
    (hne : chunkSizes ≠ []) (hsum : chunkSizes.sum = 500) :
    finalizeRecording chunkSizes 0
        = RecOutcome.tooShort
            "Recording too short or empty. Please record for at least 2 seconds."
    ∧ ∀ n, finalizeRecording chunkSizes 0 ≠ RecOutcome.transcribeCall n := by
  have hempty : chunkSizes.isEmpty = false := by
    cases chunkSizes with
    | nil => exact absurd rfl hne
    | cons a l => rfl
  have hlt : chunkSizes.sum < 1024 := by rw [hsum]; decide
  have hmain : finalizeRecording chunkSizes 0
      = RecOutcome.tooShort
          "Recording too short or empty. Please record for at least 2 seconds." := by
    unfold finalizeRecording
    rw [hempty]
    simp only [Bool.false_eq_true, if_false]
    rw [if_pos hlt]
  exact ⟨hmain, fun n h => by rw [hmain] at h; exact RecOutcome.noConfusion h⟩

/-- C8, witness: the rejection evaluated on a concrete single-chunk 500-byte
recording with a 0-tick timer. -/
theorem C8_witness :
    finalizeRecording [500] 0
      = RecOutcome.tooShort
          "Recording too short or empty. Please record for at least 2 seconds." :=
  (C8_short_recording_rejected [500] (by decide) (by decide)).1

/-- C9: the upload filename chosen by `transcribeAudio` always carries the
extension of the declared MIME container: `audio/webm` (with or without the
opus codec suffix) maps to `recording.webm`, `audio/mp4` to `recording.mp4`,
and likewise for every other entry of the recorder's preference list. -/
theorem C9_extension_matches_container :
    pickFilename "audio/webm" = "recording.webm"
    ∧ pickFilename "audio/mp4" = "recording.mp4"
    ∧ pickFilename "audio/webm;codecs=opus" = "recording.webm"
    ∧ pickFilename "audio/wav" = "recording.wav"
    ∧ pickFilename "audio/mpeg" = "recording.mp3"
    ∧ pickFilename "audio/ogg" = "recording.ogg" := by decide

/-- C10: any upload whose payload is smaller than 1024 bytes or larger than
25 MiB is rejected by the edge function with a 400 `success=false` response
and is never forwarded to the external transcription service, independently
of the client-side checks. -/
theorem C10_size_bounds_rejected (f : UploadedFile)
    (h : f.size < 1024 ∨ f.size > 25 * 1024 * 1024) :
    (∃ msg, validateUpload f = UploadCheck.reject 400 msg)
    ∧ ∀ fn, validateUpload f ≠ UploadCheck.forward fn := by
  unfold validateUpload
  split
  · exact ⟨⟨_, rfl⟩, fun fn h' => UploadCheck.noConfusion h'⟩
  · split
    · exact ⟨⟨_, rfl⟩, fun fn h' => UploadCheck.noConfusion h'⟩
    · rename_i h2
      have h3 : f.size < 1024 := by
        rcases h with h | h
        · exact h
        · exact absurd h h2
      rw [if_pos h3]
      exact ⟨⟨_, rfl⟩, fun fn h' => UploadCheck.noConfusion h'⟩

/-- C10, witness: a 500-byte `audio/webm` upload is rejected with 400 before
any external call. -/
theorem C10_witness :
    ∃ msg, validateUpload ⟨"recording.webm", "audio/webm", 500⟩
      = UploadCheck.reject 400 msg :=
  (C10_size_bounds_rejected ⟨"recording.webm", "audio/webm", 500⟩ (Or.inl (by decide))).1

end PitchPerfect
